import Mathlib

/-!
Verification of the TransferBuffer / PortConfiguration layer of libserial's
SerialStreamBuf (src/src/SerialStreamBuf.h).  The repository ships only the
interface header with documentation comments; the member-function bodies live
in an implementation file that is not part of the source tree.  Every
operation below is therefore modelled from the specification's contracts
(spec.md sections 4.1, 4.2 and 7) and from the header's own doc comments,
faithful to their words.  Bytes are modelled as natural numbers; the device
is modelled operationally by its pending input queue, its durably received
output, and adversarial oracles for short transfers.
-/

namespace LibSerial

/-- Modelled from the spec: the error taxonomy of section 7 (the C++
implementation file that raises these is not in the source tree). -/
inductive SerialError where
  | NotOpenError
  | OpenError
  | ConfigurationError
  | ReadError
  | WriteError
  | ProbeError
  | PutbackError
deriving Repr, DecidableEq

/-- Modelled from the spec: the observable state of one port instance
(section 3, TransferBuffer / Port state) together with the device collaborator
of section 6.  `putback` is the one-byte lookahead slot.  `devInput` holds the
bytes the device has ready to read; `devOutput` the bytes durably transferred
to the device.  `readSched` and `writeSched` are adversarial oracles bounding
how many bytes each raw transfer moves (short transfers); `writeCap` is how
many further bytes the device accepts before reporting an unrecoverable write
failure (`none` = no failure ahead).  `devCloseOk` records whether the
device-level close would succeed; `Close` must swallow a failure. -/
structure PortState where
  isOpen : Bool
  putback : Option Nat
  devInput : List Nat
  devOutput : List Nat
  readSched : List Nat
  writeSched : List Nat
  writeCap : Option Nat
  vmin : Nat
  vtime : Nat
  devCloseOk : Bool
deriving Repr, DecidableEq

/-- Value of an optional device write capacity, `d` when unlimited. -/
def capD : Option Nat → Nat → Nat
  | none, d => d
  | some c, _ => c

/-- Modelled from the spec: the raw-read loop of the bulk read (section 4.2,
`xsgetn`-equivalent; the loop body is in the missing implementation file).
Issues raw device reads until `n` bytes are obtained or the device input
underruns; each raw read may be short, moving at most the next `sched` entry
(at least one byte when data is pending).  Returns the bytes obtained and the
remaining device input. -/
def xsgetnLoop (dev sched : List Nat) (n : Nat) : List Nat × List Nat :=
  if _h : n = 0 ∨ dev = [] then ([], dev)
  else
    let k := min (max (sched.headD n) 1) (min n dev.length)
    let r := xsgetnLoop (dev.drop k) sched.tail (n - k)
    (dev.take k ++ r.1, r.2)
termination_by dev.length
decreasing_by
  simp only [List.length_drop]
  have hd : dev ≠ [] := by tauto
  have h1 : 1 ≤ dev.length := List.length_pos.mpr hd
  have hn : n ≠ 0 := by tauto
  omega

/-- Modelled from the spec: the raw-write loop of the bulk write (section 4.2,
`xsputn`-equivalent; the loop body is in the missing implementation file).
Issues raw device writes until all of `data` is written or the device's
remaining capacity `cap` is exhausted (the unrecoverable failure); each raw
write may be short, bounded by the next `sched` entry but always making
progress.  Returns the count written and the bytes durably transferred. -/
def xsputnLoop (data sched : List Nat) (cap : Option Nat) : Nat × List Nat :=
  if _h : data = [] ∨ capD cap data.length = 0 then (0, [])
  else
    let k := min (max (sched.headD data.length) 1)
               (min data.length (capD cap data.length))
    let r := xsputnLoop (data.drop k) sched.tail (cap.map (fun c => c - k))
    (k + r.1, data.take k ++ r.2)
termination_by data.length
decreasing_by
  simp only [List.length_drop]
  have hd : data ≠ [] := by tauto
  have h1 : 1 ≤ data.length := List.length_pos.mpr hd
  have hc : capD cap data.length ≠ 0 := by tauto
  omega

/-- Modelled from the spec: `IsOpen` is a pure query of the open state
(section 4.2; implementation file missing). -/
def IsOpen (s : PortState) : Bool :=
  s.isOpen

/-- Modelled from the spec: `Close` transitions to Closed unconditionally,
discards any pending pushed-back byte, swallows a device-level close failure
(`devCloseOk` is ignored), and is a no-op when already Closed (sections 4.2
and 7; implementation file missing). -/
def Close (s : PortState) : PortState :=
  { s with isOpen := false, putback := none }

/-- Modelled from the spec: bulk read.  Fails with NotOpenError when Closed;
otherwise first consumes the pending pushed-back byte if present and the
capacity is positive, then runs the raw-read loop for the remainder
(section 4.2; implementation file missing). -/
def xsgetn (s : PortState) (n : Nat) : Except SerialError (List Nat) × PortState :=
  if s.isOpen then
    match s.putback, n with
    | some b, m + 1 =>
        let r := xsgetnLoop s.devInput s.readSched m
        (.ok (b :: r.1), { s with putback := none, devInput := r.2 })
    | some _, 0 => (.ok [], s)
    | none, _ =>
        let r := xsgetnLoop s.devInput s.readSched n
        (.ok r.1, { s with devInput := r.2 })
  else (.error .NotOpenError, s)

/-- Bytes delivered by a bulk read (empty on failure). -/
def readBytes (s : PortState) (n : Nat) : List Nat :=
  match (xsgetn s n).1 with
  | .ok bs => bs
  | .error _ => []

/-- Port state after a bulk read. -/
def afterRead (s : PortState) (n : Nat) : PortState :=
  (xsgetn s n).2

/-- Modelled from the spec: bulk write.  Fails with NotOpenError when Closed;
otherwise runs the raw-write loop and reports the count durably transferred
(section 4.2; implementation file missing). -/
def xsputn (s : PortState) (data : List Nat) : Except SerialError Nat × PortState :=
  if s.isOpen then
    let r := xsputnLoop data s.writeSched s.writeCap
    (.ok r.1, { s with devOutput := s.devOutput ++ r.2,
                       writeCap := s.writeCap.map (fun c => c - r.1) })
  else (.error .NotOpenError, s)

/-- Modelled from the spec: the peeking single-byte read.  Returns the
pushed-back byte if one is held, otherwise reads one byte from the device and
leaves it available in the lookahead slot; `some` none-result signals
end-of-stream (section 4.2 single-byte read path; implementation file
missing). -/
def underflow (s : PortState) : Except SerialError (Option Nat) × PortState :=
  if s.isOpen then
    match s.putback with
    | some b => (.ok (some b), s)
    | none =>
        match s.devInput with
        | [] => (.ok none, s)
        | b :: rest => (.ok (some b), { s with putback := some b, devInput := rest })
  else (.error .NotOpenError, s)

/-- Modelled from the spec: the consuming single-byte read.  Same result as
the peeking variant but the returned byte is consumed rather than left in the
lookahead slot (section 4.2 single-byte read path; implementation file
missing). -/
def uflow (s : PortState) : Except SerialError (Option Nat) × PortState :=
  match underflow s with
  | (.ok (some b), s') => (.ok (some b), { s' with putback := none })
  | r => r

/-- Modelled from the spec: putback handler.  With the one-byte lookahead
slot empty the byte is held for the next read; with a byte already pending
the request fails with PutbackError (signalled as eof to the stream layer)
and nothing is overwritten (section 4.2; implementation file missing). -/
def pbackfail (s : PortState) (c : Nat) : Except SerialError Nat × PortState :=
  if s.isOpen then
    match s.putback with
    | some _ => (.error .PutbackError, s)
    | none => (.ok c, { s with putback := some c })
  else (.error .NotOpenError, s)

/-- Modelled from the spec and the header doc comment: the availability
probe.  Returns 1 if characters are available (the lookahead slot or the
device), 0 if none are, and -1 if the probe cannot be performed; never the
actual pending count (header lines 293-307; implementation file missing). -/
def showmanyc (s : PortState) : Int × PortState :=
  if s.isOpen then
    if s.putback.isSome || !s.devInput.isEmpty then (1, s) else (0, s)
  else (-1, s)

/-- Modelled from the spec: `IsDataAvailable` fails with NotOpenError when
Closed and otherwise answers via the `showmanyc` probe, not by attempting a
read (section 4.2; implementation file missing). -/
def IsDataAvailable (s : PortState) : Except SerialError Bool × PortState :=
  if s.isOpen then (.ok (decide (0 < (showmanyc s).1)), (showmanyc s).2)
  else (.error .NotOpenError, s)

/-- Modelled from the spec: discard unread input at the device level; fails
with NotOpenError when Closed (section 4.2; implementation file missing). -/
def FlushInputBuffer (s : PortState) : Except SerialError Unit × PortState :=
  if s.isOpen then (.ok (), { s with devInput := [] })
  else (.error .NotOpenError, s)

/-- Modelled from the spec: discard unsent output at the device level (the
model's `devOutput` holds only durably transferred bytes, so nothing visible
is discarded); fails with NotOpenError when Closed (section 4.2;
implementation file missing). -/
def FlushOutputBuffer (s : PortState) : Except SerialError Unit × PortState :=
  if s.isOpen then (.ok (), s)
  else (.error .NotOpenError, s)

/-- Modelled from the spec: both flushes at once; fails with NotOpenError
when Closed (section 4.2; implementation file missing). -/
def FlushIOBuffers (s : PortState) : Except SerialError Unit × PortState :=
  if s.isOpen then (.ok (), { s with devInput := [] })
  else (.error .NotOpenError, s)

/-- Modelled from the spec: VMIN setter, declared over the C++ `short` range,
accepts only values in 0..255 and rejects the rest with ConfigurationError
(section 4.1; implementation file missing). -/
def SetVMin (s : PortState) (v : Int) : Except SerialError Unit × PortState :=
  if s.isOpen then
    if 0 ≤ v ∧ v ≤ 255 then (.ok (), { s with vmin := v.toNat })
    else (.error .ConfigurationError, s)
  else (.error .NotOpenError, s)

/-- Modelled from the spec: VMIN getter (section 4.1; implementation file
missing). -/
def GetVMin (s : PortState) : Except SerialError Int × PortState :=
  if s.isOpen then (.ok (s.vmin : Int), s)
  else (.error .NotOpenError, s)

/-- Modelled from the spec: VTIME setter, declared over the C++ `short`
range, accepts only values in 0..255 and rejects the rest with
ConfigurationError (section 4.1; implementation file missing). -/
def SetVTime (s : PortState) (v : Int) : Except SerialError Unit × PortState :=
  if s.isOpen then
    if 0 ≤ v ∧ v ≤ 255 then (.ok (), { s with vtime := v.toNat })
    else (.error .ConfigurationError, s)
  else (.error .NotOpenError, s)

/-- Modelled from the spec: VTIME getter (section 4.1; implementation file
missing). -/
def GetVTime (s : PortState) : Except SerialError Int × PortState :=
  if s.isOpen then (.ok (s.vtime : Int), s)
  else (.error .NotOpenError, s)

/-- Auxiliary strong induction (on a bound of the device queue length) for
the raw-read loop characterization. -/
theorem xsgetnLoop_eq_aux (L : Nat) : ∀ (dev sched : List Nat) (n : Nat),
    dev.length ≤ L → xsgetnLoop dev sched n = (dev.take n, dev.drop n) := by
  induction L with
  | zero =>
      intro dev sched n hL
      have hdev : dev = [] := List.length_eq_zero.mp (Nat.le_zero.mp hL)
      subst hdev
      rw [xsgetnLoop]
      simp
  | succ L ihL =>
      intro dev sched n hL
      rw [xsgetnLoop]
      by_cases h : n = 0 ∨ dev = []
      · rcases h with h | h <;> simp [h]
      · simp only [dif_neg h]
        have hd : dev ≠ [] := fun hc => h (Or.inr hc)
        have hn : n ≠ 0 := fun hc => h (Or.inl hc)
        have hlen : 1 ≤ dev.length := List.length_pos.mpr hd
        set k := min (max (sched.headD n) 1) (min n dev.length) with hk
        have hk1 : 1 ≤ k := le_min (le_max_right _ 1) (le_min (by omega) hlen)
        have hkn : k ≤ n := le_trans (min_le_right _ _) (min_le_left _ _)
        have ih := ihL (dev.drop k) sched.tail (n - k)
          (by rw [List.length_drop]; omega)
        rw [ih]
        have h1 : List.take k dev ++ List.take (n - k) (List.drop k dev)
            = List.take n dev := by
          rw [← List.take_add, Nat.add_sub_cancel' hkn]
        have h2 : List.drop (n - k) (List.drop k dev) = List.drop n dev := by
          rw [List.drop_drop, Nat.add_sub_cancel' hkn]
        simp [h1, h2]

/-- Whatever the short-read schedule, the raw-read loop delivers exactly the
first `min n (dev.length)` pending bytes and leaves the rest. -/
theorem xsgetnLoop_eq (dev sched : List Nat) (n : Nat) :
    xsgetnLoop dev sched n = (dev.take n, dev.drop n) :=
  xsgetnLoop_eq_aux dev.length dev sched n le_rfl

/-- Whatever the short-write schedule, the raw-write loop durably transfers
exactly the first `min data.length cap` bytes and reports exactly that
count. -/
theorem xsputnLoop_eq_aux (L : Nat) : ∀ (data sched : List Nat) (cap : Option Nat),
    data.length ≤ L → xsputnLoop data sched cap =
      (min data.length (capD cap data.length),
       data.take (min data.length (capD cap data.length))) := by
  induction L with
  | zero =>
      intro data sched cap hL
      have hdata : data = [] := List.length_eq_zero.mp (Nat.le_zero.mp hL)
      subst hdata
      rw [xsputnLoop]
      simp
  | succ L ihL =>
      intro data sched cap hL
      rw [xsputnLoop]
      by_cases h : data = [] ∨ capD cap data.length = 0
      · rcases h with h | h
        · simp [h]
        · rw [dif_pos (Or.inr h), h]
          simp
      · simp only [dif_neg h]
        have hd : data ≠ [] := fun hc => h (Or.inl hc)
        have hc0 : capD cap data.length ≠ 0 := fun hc => h (Or.inr hc)
        have hlen : 1 ≤ data.length := List.length_pos.mpr hd
        set k := min (max (sched.headD data.length) 1)
          (min data.length (capD cap data.length)) with hk
        have hk1 : 1 ≤ k := le_min (le_max_right _ 1) (le_min hlen (by omega))
        have hkd : k ≤ data.length := le_trans (min_le_right _ _) (min_le_left _ _)
        have hkc : k ≤ capD cap data.length :=
          le_trans (min_le_right _ _) (min_le_right _ _)
        have hdlen : (data.drop k).length = data.length - k := List.length_drop ..
        have hcap : capD (cap.map (fun c => c - k)) ((data.drop k).length)
            = capD cap data.length - k := by
          cases cap with
          | none => simp [capD, hdlen]
          | some c => simp [capD]
        have ih := ihL (data.drop k) sched.tail (cap.map (fun c => c - k))
          (by rw [List.length_drop]; omega)
        rw [ih, hcap, hdlen]
        have hmin : min (data.length - k) (capD cap data.length - k)
            = min data.length (capD cap data.length) - k := by omega
        have hcount : k + (min data.length (capD cap data.length) - k)
            = min data.length (capD cap data.length) := by omega
        have hbytes : List.take k data ++
            List.take (min data.length (capD cap data.length) - k) (List.drop k data)
            = List.take (min data.length (capD cap data.length)) data := by
          rw [← List.take_add, hcount]
        simp [hmin, hcount, hbytes]

/-- Whatever the short-write schedule, the raw-write loop durably transfers
exactly the first `min data.length cap` bytes and reports exactly that
count. -/
theorem xsputnLoop_eq (data sched : List Nat) (cap : Option Nat) :
    xsputnLoop data sched cap =
      (min data.length (capD cap data.length),
       data.take (min data.length (capD cap data.length))) :=
  xsputnLoop_eq_aux data.length data sched cap le_rfl

/-- Closed form of the bulk read on an open port with no pending pushback. -/
theorem xsgetn_open_none (s : PortState) (n : Nat) (ho : s.isOpen = true)
    (hp : s.putback = none) :
    xsgetn s n = (.ok (s.devInput.take n), { s with devInput := s.devInput.drop n }) := by
  simp [xsgetn, ho, hp, xsgetnLoop_eq]

/-- A bulk read of capacity zero on an open port with a pending pushback
consumes nothing. -/
theorem xsgetn_open_some_zero (s : PortState) (b : Nat) (ho : s.isOpen = true)
    (hp : s.putback = some b) :
    xsgetn s 0 = (.ok [], s) := by
  simp [xsgetn, ho, hp]

/-- Closed form of the bulk read on an open port with a pending pushback and
positive capacity. -/
theorem xsgetn_open_some_succ (s : PortState) (b m : Nat) (ho : s.isOpen = true)
    (hp : s.putback = some b) :
    xsgetn s (m + 1) =
      (.ok (b :: s.devInput.take m),
       { s with putback := none, devInput := s.devInput.drop m }) := by
  simp [xsgetn, ho, hp, xsgetnLoop_eq]

/-- Claim C1: on an open port the bulk read of capacity `n` succeeds, its
returned byte list (whose length is the returned count) holds at most `n`
bytes, and a pending pushed-back byte is delivered first and consumed — the
remainder of the destination comes from the device queue, i.e. no raw device
read precedes the pushed-back byte. -/
theorem xsgetn_putback_first_count_bounded (s : PortState) (n : Nat)
    (ho : s.isOpen = true) :
    ∃ bs s', xsgetn s n = (.ok bs, s') ∧ bs.length ≤ n ∧
      (∀ b, s.putback = some b → 0 < n →
        bs = b :: s.devInput.take (n - 1) ∧ s'.putback = none ∧
        s'.devInput = s.devInput.drop (n - 1)) := by
  rcases hp : s.putback with _ | b
  · refine ⟨s.devInput.take n, { s with devInput := s.devInput.drop n },
      xsgetn_open_none s n ho hp, ?_, ?_⟩
    · simp [List.length_take]
    · intro b hb
      simp at hb
  · cases n with
    | zero =>
        exact ⟨[], s, xsgetn_open_some_zero s b ho hp, by simp, fun _ _ h => absurd h (by omega)⟩
    | succ m =>
        refine ⟨b :: s.devInput.take m,
          { s with putback := none, devInput := s.devInput.drop m },
          xsgetn_open_some_succ s b m ho hp, ?_, ?_⟩
        · simp [List.length_take]
        · intro b' hb' _
          injection hb' with hbb
          subst hbb
          simp

/-- Claim C2: on an open port, pushing back one byte into the empty lookahead
slot succeeds and the next consuming read returns exactly that byte with the
device queue untouched; requesting a second pushback while a byte is already
pending fails with PutbackError and leaves the state (hence the pending byte)
intact, and that pending byte is still the one the next read delivers. -/
theorem pbackfail_single_slot (s : PortState) (ho : s.isOpen = true) :
    (∀ c, s.putback = none →
      ∃ s₂, pbackfail s c = (.ok c, s₂) ∧ s₂.devInput = s.devInput ∧
        uflow s₂ = (.ok (some c), { s₂ with putback := none })) ∧
    (∀ b c, s.putback = some b →
      pbackfail s c = (.error .PutbackError, s) ∧
        uflow s = (.ok (some b), { s with putback := none })) := by
  constructor
  · intro c hp
    refine ⟨{ s with putback := some c }, ?_, ?_, ?_⟩
    · simp [pbackfail, ho, hp]
    · simp
    · simp [uflow, underflow, ho]
  · intro b c hp
    constructor
    · simp [pbackfail, ho, hp]
    · simp [uflow, underflow, ho, hp]

/-- Claim C3: on an open port the bulk write reports a count of at most the
buffer length; the device durably receives exactly the first `count` bytes;
without an unrecoverable device failure ahead the count is the full length,
and with the device accepting only `c` more bytes the count is exactly
`min length c` — whatever the short-write schedule. -/
theorem xsputn_partial_write_accounting (s : PortState) (data : List Nat)
    (ho : s.isOpen = true) :
    ∃ m s', xsputn s data = (.ok m, s') ∧ m ≤ data.length ∧
      s'.devOutput = s.devOutput ++ data.take m ∧
      (s.writeCap = none → m = data.length) ∧
      (∀ c, s.writeCap = some c → m = min data.length c) := by
  have hloop := xsputnLoop_eq data s.writeSched s.writeCap
  refine ⟨(xsputnLoop data s.writeSched s.writeCap).1, (xsputn s data).2,
    by simp [xsputn, ho], ?_, ?_, ?_, ?_⟩
  · rw [hloop]
    exact min_le_left _ _
  · simp [xsputn, ho, hloop]
  · intro hc
    rw [hloop]
    simp [hc, capD]
  · intro c hc
    rw [hloop]
    simp [hc, capD]

/-- Claim C4: Close never fails and, from any state — already Closed or with
a device-level close failure pending (`devCloseOk = false`) — it ends Closed,
discards any pending pushed-back byte, and a second Close is a no-op. -/
theorem Close_idempotent_never_fails (s : PortState) :
    IsOpen (Close s) = false ∧ (Close s).putback = none ∧
      Close (Close s) = Close s ∧
      IsOpen (Close { s with devCloseOk := false }) = false := by
  simp [Close, IsOpen]

/-- Claim C5: every modelled configuration or transfer operation invoked on a
Closed port fails with NotOpenError and returns the state unchanged. -/
theorem closed_ops_fail_NotOpenError (s : PortState) (hc : s.isOpen = false) :
    (∀ n, xsgetn s n = (.error .NotOpenError, s)) ∧
    (∀ data, xsputn s data = (.error .NotOpenError, s)) ∧
    underflow s = (.error .NotOpenError, s) ∧
    uflow s = (.error .NotOpenError, s) ∧
    (∀ c, pbackfail s c = (.error .NotOpenError, s)) ∧
    IsDataAvailable s = (.error .NotOpenError, s) ∧
    FlushInputBuffer s = (.error .NotOpenError, s) ∧
    FlushOutputBuffer s = (.error .NotOpenError, s) ∧
    FlushIOBuffers s = (.error .NotOpenError, s) ∧
    (∀ v, SetVMin s v = (.error .NotOpenError, s)) ∧
    GetVMin s = (.error .NotOpenError, s) ∧
    (∀ v, SetVTime s v = (.error .NotOpenError, s)) ∧
    GetVTime s = (.error .NotOpenError, s) := by
  simp [xsgetn, xsputn, underflow, uflow, pbackfail, IsDataAvailable,
        FlushInputBuffer, FlushOutputBuffer, FlushIOBuffers, SetVMin, GetVMin,
        SetVTime, GetVTime, hc]

/-- Claim C6: on an open port the peeking and the consuming single-byte reads
return the same value — the pending pushed-back byte if held, else the next
device byte, else the end-of-stream signal — and leave the same device input
queue behind; they differ only in the lookahead slot: the peeking variant
keeps the returned byte available there while the consuming variant empties
it. -/
theorem underflow_uflow_agree (s : PortState) (ho : s.isOpen = true) :
    ∃ r s₁ s₂, underflow s = (r, s₁) ∧ uflow s = (r, s₂) ∧
      s₁.devInput = s₂.devInput ∧
      (∀ b, s.putback = some b →
        r = .ok (some b) ∧ s₁ = s ∧ s₂ = { s with putback := none }) ∧
      (s.putback = none → s.devInput = [] → r = .ok none ∧ s₁ = s ∧ s₂ = s) ∧
      (∀ b rest, s.putback = none → s.devInput = b :: rest →
        r = .ok (some b) ∧ s₁.putback = some b ∧ s₂.putback = none ∧
        s₁.devInput = rest ∧ s₂.devInput = rest) := by
  rcases hp : s.putback with _ | b
  · rcases hd : s.devInput with _ | ⟨b, rest⟩
    · refine ⟨.ok none, s, s, ?_, ?_, rfl, ?_, ?_, ?_⟩
      · simp [underflow, ho, hp, hd]
      · simp [uflow, underflow, ho, hp, hd]
      · intro b hb
        simp at hb
      · exact fun _ _ => ⟨rfl, rfl, rfl⟩
      · intro b rest _ hr
        simp [hd] at hr
    · refine ⟨.ok (some b), { s with putback := some b, devInput := rest },
        { s with putback := none, devInput := rest }, ?_, ?_, rfl, ?_, ?_, ?_⟩
      · simp [underflow, ho, hp, hd]
      · simp [uflow, underflow, ho, hp, hd]
      · intro b' hb'
        simp at hb'
      · intro _ hd'
        simp [hd] at hd'
      · intro b' rest' _ hr
        injection hr with h1 h2
        subst h1
        subst h2
        exact ⟨rfl, rfl, rfl, rfl, rfl⟩
  · refine ⟨.ok (some b), s, { s with putback := none }, ?_, ?_, rfl, ?_, ?_, ?_⟩
    · simp [underflow, ho, hp]
    · simp [uflow, underflow, ho, hp]
    · intro b' hb'
      injection hb' with hbb
      subst hbb
      exact ⟨rfl, rfl, rfl⟩
    · intro hn
      simp at hn
    · intro b' rest' hn
      simp at hn

/-- Claim C7: on an open port IsDataAvailable answers through the showmanyc
probe without attempting a read and without altering the state, and it
returns true exactly when a byte is pending in the lookahead slot or in the
device input queue. -/
theorem IsDataAvailable_via_showmanyc (s : PortState) (ho : s.isOpen = true) :
    IsDataAvailable s = (.ok (decide (0 < (showmanyc s).1)), s) ∧
      ((IsDataAvailable s).1 = .ok true ↔
        s.putback.isSome ∨ s.devInput ≠ []) := by
  constructor
  · simp [IsDataAvailable, showmanyc, ho]
    split <;> rfl
  · rcases hp : s.putback with _ | b
    · rcases hd : s.devInput with _ | ⟨b, rest⟩
      · simp [IsDataAvailable, showmanyc, ho, hp, hd]
      · simp [IsDataAvailable, showmanyc, ho, hp, hd]
    · simp [IsDataAvailable, showmanyc, ho, hp]

/-- Claim C9: on an open port the VMIN and VTIME setters accept exactly the
integer range 0..255 — an accepted value is what the matching getter then
returns — and reject any other short value (negative included) with
ConfigurationError, leaving the state unchanged. -/
theorem vmin_vtime_range_roundtrip (s : PortState) (v : Int) (ho : s.isOpen = true) :
    ((0 ≤ v ∧ v ≤ 255) →
      ∃ s₁ s₂, SetVMin s v = (.ok (), s₁) ∧ GetVMin s₁ = (.ok v, s₁) ∧
        SetVTime s v = (.ok (), s₂) ∧ GetVTime s₂ = (.ok v, s₂)) ∧
    (¬(0 ≤ v ∧ v ≤ 255) →
      SetVMin s v = (.error .ConfigurationError, s) ∧
      SetVTime s v = (.error .ConfigurationError, s)) := by
  constructor
  · intro hv
    refine ⟨{ s with vmin := v.toNat }, { s with vtime := v.toNat }, ?_, ?_, ?_, ?_⟩
    · simp [SetVMin, ho, hv]
    · simp [GetVMin, ho, Int.toNat_of_nonneg hv.1]
    · simp [SetVTime, ho, hv]
    · simp [GetVTime, ho, Int.toNat_of_nonneg hv.1]
  · intro hv
    constructor
    · simp [SetVMin, ho, hv]
    · simp [SetVTime, ho, hv]

/-- Claim C10: on an open port the showmanyc probe yields only the three
values 1, 0 or -1 — never the actual pending count, so its result never
exceeds 1 even with many bytes queued — and it leaves the state unchanged. -/
theorem showmanyc_tristate (s : PortState) (ho : s.isOpen = true) :
    ((showmanyc s).1 = 1 ∨ (showmanyc s).1 = 0 ∨ (showmanyc s).1 = -1) ∧
      (showmanyc s).1 ≤ 1 ∧ (showmanyc s).2 = s := by
  rcases hp : s.putback with _ | b
  · rcases hd : s.devInput with _ | ⟨b, rest⟩
    · simp [showmanyc, ho, hp, hd]
    · simp [showmanyc, ho, hp, hd]
  · simp [showmanyc, ho, hp]

/-- On an open port every bulk read succeeds, delivering `readBytes`. -/
theorem xsgetn_ok (s : PortState) (n : Nat) (ho : s.isOpen = true) :
    (xsgetn s n).1 = .ok (readBytes s n) := by
  rcases hp : s.putback with _ | b
  · simp [readBytes, xsgetn_open_none s n ho hp]
  · cases n with
    | zero => simp [readBytes, xsgetn_open_some_zero s b ho hp]
    | succ m => simp [readBytes, xsgetn_open_some_succ s b m ho hp]

/-- Claim C8: on an open port, for any split point `k ≤ n` over the same
underlying device data, reading in two bulk calls of sizes `k` and `n - k`
succeeds and yields the same concatenated byte sequence as the single bulk
call of size `n`. -/
theorem xsgetn_split_concat (s : PortState) (k n : Nat) (ho : s.isOpen = true)
    (hk : k ≤ n) :
    (xsgetn s k).1 = .ok (readBytes s k) ∧
    (xsgetn (afterRead s k) (n - k)).1 = .ok (readBytes (afterRead s k) (n - k)) ∧
    (xsgetn s n).1 = .ok (readBytes s n) ∧
    readBytes s k ++ readBytes (afterRead s k) (n - k) = readBytes s n := by
  rcases hp : s.putback with _ | b
  · have h1 := xsgetn_open_none s k ho hp
    have ha : afterRead s k = { s with devInput := s.devInput.drop k } := by
      rw [afterRead, h1]
    have h2 := xsgetn_open_none { s with devInput := s.devInput.drop k } (n - k) ho hp
    have h3 := xsgetn_open_none s n ho hp
    refine ⟨xsgetn_ok s k ho, ?_, xsgetn_ok s n ho, ?_⟩
    · rw [ha]
      exact xsgetn_ok _ (n - k) ho
    · simp [readBytes, ha, h1, h2, h3]
      rw [← List.take_add, Nat.add_sub_cancel' hk]
  · cases k with
    | zero =>
        have h1 := xsgetn_open_some_zero s b ho hp
        have ha : afterRead s 0 = s := by
          rw [afterRead, h1]
        refine ⟨xsgetn_ok s 0 ho, ?_, xsgetn_ok s n ho, ?_⟩
        · rw [ha]
          exact xsgetn_ok s (n - 0) ho
        · rw [ha]
          simp [readBytes, h1]
    | succ k' =>
        obtain ⟨m, rfl⟩ : ∃ m, n = m + 1 := ⟨n - 1, by omega⟩
        have hk' : k' ≤ m := by omega
        have h1 := xsgetn_open_some_succ s b k' ho hp
        have ha : afterRead s (k' + 1)
            = { s with putback := none, devInput := s.devInput.drop k' } := by
          rw [afterRead, h1]
        have h2 := xsgetn_open_none
          { s with putback := none, devInput := s.devInput.drop k' }
          (m - k') ho rfl
        have h3 := xsgetn_open_some_succ s b m ho hp
        refine ⟨xsgetn_ok s (k' + 1) ho, ?_, xsgetn_ok s (m + 1) ho, ?_⟩
        · rw [ha]
          exact xsgetn_ok _ (m + 1 - (k' + 1)) ho
        · simp [readBytes, ha, h1, h2, h3]
          rw [← List.take_add, Nat.add_sub_cancel' hk']

/-- A concrete open port with a pending pushed-back byte, queued device
input, and a device that accepts only two more bytes before failing. -/
def samplePB : PortState :=
  { isOpen := true, putback := some 65, devInput := [66, 67, 68], devOutput := [],
    readSched := [1, 2], writeSched := [1], writeCap := some 2, vmin := 1,
    vtime := 0, devCloseOk := true }

/-- The same concrete open port with an empty lookahead slot. -/
def sampleNoPB : PortState :=
  { samplePB with putback := none }

/-- A concrete closed port. -/
def sampleClosed : PortState :=
  { samplePB with isOpen := false }

/-- Concrete instantiation of the C1 theorem: a bulk read of capacity 2 on
the sample port with a pending pushback. -/
theorem xsgetn_putback_first_count_bounded_witness :
    samplePB.isOpen = true ∧
    (∃ bs s', xsgetn samplePB 2 = (.ok bs, s') ∧ bs.length ≤ 2 ∧
      (∀ b, samplePB.putback = some b → 0 < 2 →
        bs = b :: samplePB.devInput.take (2 - 1) ∧ s'.putback = none ∧
        s'.devInput = samplePB.devInput.drop (2 - 1))) :=
  ⟨rfl, xsgetn_putback_first_count_bounded samplePB 2 rfl⟩

/-- Concrete instantiation of the C2 theorem on the sample port whose
lookahead slot already holds a byte. -/
theorem pbackfail_single_slot_witness :
    samplePB.isOpen = true ∧
    ((∀ c, samplePB.putback = none →
      ∃ s₂, pbackfail samplePB c = (.ok c, s₂) ∧ s₂.devInput = samplePB.devInput ∧
        uflow s₂ = (.ok (some c), { s₂ with putback := none })) ∧
    (∀ b c, samplePB.putback = some b →
      pbackfail samplePB c = (.error .PutbackError, samplePB) ∧
        uflow samplePB = (.ok (some b), { samplePB with putback := none }))) :=
  ⟨rfl, pbackfail_single_slot samplePB rfl⟩

/-- Concrete instantiation of the C3 theorem: writing three bytes to the
sample device that accepts only two more. -/
theorem xsputn_partial_write_accounting_witness :
    samplePB.isOpen = true ∧
    (∃ m s', xsputn samplePB [1, 2, 3] = (.ok m, s') ∧ m ≤ [1, 2, 3].length ∧
      s'.devOutput = samplePB.devOutput ++ [1, 2, 3].take m ∧
      (samplePB.writeCap = none → m = [1, 2, 3].length) ∧
      (∀ c, samplePB.writeCap = some c → m = min [1, 2, 3].length c)) :=
  ⟨rfl, xsputn_partial_write_accounting samplePB [1, 2, 3] rfl⟩

/-- Concrete instantiation of the C5 theorem on the closed sample port. -/
theorem closed_ops_fail_NotOpenError_witness :
    sampleClosed.isOpen = false ∧
    ((∀ n, xsgetn sampleClosed n = (.error .NotOpenError, sampleClosed)) ∧
    (∀ data, xsputn sampleClosed data = (.error .NotOpenError, sampleClosed)) ∧
    underflow sampleClosed = (.error .NotOpenError, sampleClosed) ∧
    uflow sampleClosed = (.error .NotOpenError, sampleClosed) ∧
    (∀ c, pbackfail sampleClosed c = (.error .NotOpenError, sampleClosed)) ∧
    IsDataAvailable sampleClosed = (.error .NotOpenError, sampleClosed) ∧
    FlushInputBuffer sampleClosed = (.error .NotOpenError, sampleClosed) ∧
    FlushOutputBuffer sampleClosed = (.error .NotOpenError, sampleClosed) ∧
    FlushIOBuffers sampleClosed = (.error .NotOpenError, sampleClosed) ∧
    (∀ v, SetVMin sampleClosed v = (.error .NotOpenError, sampleClosed)) ∧
    GetVMin sampleClosed = (.error .NotOpenError, sampleClosed) ∧
    (∀ v, SetVTime sampleClosed v = (.error .NotOpenError, sampleClosed)) ∧
    GetVTime sampleClosed = (.error .NotOpenError, sampleClosed)) :=
  ⟨rfl, closed_ops_fail_NotOpenError sampleClosed rfl⟩

/-- Concrete instantiation of the C6 theorem on the sample port with a
pending pushed-back byte. -/
theorem underflow_uflow_agree_witness :
    samplePB.isOpen = true ∧
    (∃ r s₁ s₂, underflow samplePB = (r, s₁) ∧ uflow samplePB = (r, s₂) ∧
      s₁.devInput = s₂.devInput ∧
      (∀ b, samplePB.putback = some b →
        r = .ok (some b) ∧ s₁ = samplePB ∧ s₂ = { samplePB with putback := none }) ∧
      (samplePB.putback = none → samplePB.devInput = [] →
        r = .ok none ∧ s₁ = samplePB ∧ s₂ = samplePB) ∧
      (∀ b rest, samplePB.putback = none → samplePB.devInput = b :: rest →
        r = .ok (some b) ∧ s₁.putback = some b ∧ s₂.putback = none ∧
        s₁.devInput = rest ∧ s₂.devInput = rest)) :=
  ⟨rfl, underflow_uflow_agree samplePB rfl⟩

/-- Concrete instantiation of the C7 theorem on the sample open port. -/
theorem IsDataAvailable_via_showmanyc_witness :
    samplePB.isOpen = true ∧
    (IsDataAvailable samplePB = (.ok (decide (0 < (showmanyc samplePB).1)), samplePB) ∧
      ((IsDataAvailable samplePB).1 = .ok true ↔
        samplePB.putback.isSome ∨ samplePB.devInput ≠ [])) :=
  ⟨rfl, IsDataAvailable_via_showmanyc samplePB rfl⟩

/-- Concrete instantiation of the C8 theorem: reading four bytes of the
sample port as one then three. -/
theorem xsgetn_split_concat_witness :
    samplePB.isOpen = true ∧ 1 ≤ 4 ∧
    ((xsgetn samplePB 1).1 = .ok (readBytes samplePB 1) ∧
    (xsgetn (afterRead samplePB 1) (4 - 1)).1
      = .ok (readBytes (afterRead samplePB 1) (4 - 1)) ∧
    (xsgetn samplePB 4).1 = .ok (readBytes samplePB 4) ∧
    readBytes samplePB 1 ++ readBytes (afterRead samplePB 1) (4 - 1)
      = readBytes samplePB 4) :=
  ⟨rfl, by decide, xsgetn_split_concat samplePB 1 4 rfl (by decide)⟩

/-- Concrete instantiation of the C9 theorem: the accepted value 200 and the
rejected values are covered by the two implications. -/
theorem vmin_vtime_range_roundtrip_witness :
    samplePB.isOpen = true ∧
    (((0 ≤ (200 : Int) ∧ (200 : Int) ≤ 255) →
      ∃ s₁ s₂, SetVMin samplePB 200 = (.ok (), s₁) ∧ GetVMin s₁ = (.ok 200, s₁) ∧
        SetVTime samplePB 200 = (.ok (), s₂) ∧ GetVTime s₂ = (.ok 200, s₂)) ∧
    (¬(0 ≤ (200 : Int) ∧ (200 : Int) ≤ 255) →
      SetVMin samplePB 200 = (.error .ConfigurationError, samplePB) ∧
      SetVTime samplePB 200 = (.error .ConfigurationError, samplePB))) :=
  ⟨rfl, vmin_vtime_range_roundtrip samplePB 200 rfl⟩

/-- Concrete instantiation of the C10 theorem on the sample open port. -/
theorem showmanyc_tristate_witness :
    samplePB.isOpen = true ∧
    (((showmanyc samplePB).1 = 1 ∨ (showmanyc samplePB).1 = 0 ∨
        (showmanyc samplePB).1 = -1) ∧
      (showmanyc samplePB).1 ≤ 1 ∧ (showmanyc samplePB).2 = samplePB) :=
  ⟨rfl, showmanyc_tristate samplePB rfl⟩

end LibSerial
